import Mathlib

/-!
Shallow embedding of the tech-news bot core (`src/filter.py`, `src/notifier.py`,
`src/providers/{chatgpt,gemini,claude}.py`, `src/main.py`) and proofs about it.

Modelling conventions:
* Python strings are `List Char` (ASCII fragment of Python's Unicode handling).
* Python `float` scores are `ℚ` (all constants involved are exact decimals).
* `datetime` values are `Int` Unix seconds; `timedelta` comparisons become
  integer comparisons on second counts (24h = 86400 s, 7d = 604800 s,
  30d = 2592000 s).
* The wall clock (`datetime.now`) enters as an explicit `now : Int` parameter;
  formatted date strings enter as explicit string parameters.
* Python's stable `sort` / `sorted` is modelled by `List.insertionSort`, which
  is stable for equivalent elements, like CPython's sort.
-/

/-- Python whitespace class `\s` (ASCII fragment): the characters stripped by
`str.strip()` and matched by `re` whitespace. -/
def isPySpace (c : Char) : Bool :=
  c = ' ' || c = '\t' || c = '\n' || c = '\r' || c = '\x0b' || c = '\x0c'

/-- Python word class `\w` (ASCII fragment): alphanumerics and underscore. -/
def isWordChar (c : Char) : Bool :=
  c.isAlphanum || c = '_'

/-- Embeds `_normalize` from `src/filter.py`: lower-case the text, then delete
every character that is neither a word character nor whitespace
(`re.sub(r"[^\w\s]", "", text.lower())`). -/
def _normalize (text : List Char) : List Char :=
  (text.map Char.toLower).filter (fun c => isWordChar c || isPySpace c)

/-- Helper for `countOccs`: scans the text left to right counting
non-overlapping occurrences of `pat`; `skip` is the number of characters of a
just-counted match still to be skipped, mirroring how `re.findall` resumes
scanning after the end of each match. -/
def countOccsAux (pat : List Char) : List Char → Nat → Nat
  | [], _ => 0
  | c :: rest, 0 =>
    if pat.isPrefixOf (c :: rest) then 1 + countOccsAux pat rest (pat.length - 1)
    else countOccsAux pat rest 0
  | _ :: rest, skip + 1 => countOccsAux pat rest skip

/-- Number of matches of `len(re.findall(re.escape(pat), text))`: the count of
non-overlapping, leftmost occurrences of the literal `pat` in `text`.
An empty pattern matches at every position (`length + 1` times). -/
def countOccs (pat : List Char) (text : List Char) : Nat :=
  if pat = [] then text.length + 1 else countOccsAux pat text 0

/-- Boolean lexicographic comparison of Python strings (`s <= t` by code
point, a proper prefix sorting first), used to model Python's `sorted`. -/
def lexLe : List Char → List Char → Bool
  | [], _ => true
  | _ :: _, [] => false
  | a :: as, b :: bs => if a < b then true else if b < a then false else lexLe as bs

/-- Propositional form of `lexLe`. -/
def lexRel (s t : List Char) : Prop := lexLe s t = true

instance : DecidableRel lexRel := fun s t => by unfold lexRel; infer_instance

theorem lexLe_total : ∀ s t : List Char, lexLe s t = true ∨ lexLe t s = true := by
  intro s
  induction s with
  | nil => intro t; left; rfl
  | cons a as ih =>
    intro t
    cases t with
    | nil => right; rfl
    | cons b bs =>
      rcases lt_trichotomy a b with h | h | h
      · left; simp [lexLe, h]
      · subst h
        rcases ih bs with h' | h' <;> [left; right] <;> simp [lexLe, h', lt_irrefl]
      · right; simp [lexLe, h]

theorem lexLe_trans : ∀ s t u : List Char,
    lexLe s t = true → lexLe t u = true → lexLe s u = true := by
  intro s
  induction s with
  | nil => intro t u _ _; rfl
  | cons a as ih =>
    intro t u hst htu
    cases t with
    | nil => simp [lexLe] at hst
    | cons b bs =>
      cases u with
      | nil => simp [lexLe] at htu
      | cons c cs =>
        simp only [lexLe] at hst htu ⊢
        by_cases hab : a < b
        · by_cases hbc : b < c
          · simp [lt_trans hab hbc]
          · by_cases hcb : c < b
            · simp [hbc, hcb] at htu
            · have : b = c := le_antisymm (not_lt.mp hcb) (not_lt.mp hbc)
              subst this
              simp [hab]
        · by_cases hba : b < a
          · simp [hab, hba] at hst
          · have : a = b := le_antisymm (not_lt.mp hba) (not_lt.mp hab)
            subst this
            by_cases hbc : a < c
            · simp [hbc]
            · by_cases hcb : c < a
              · simp [hbc, hcb] at htu
              · simp [hab, hba] at hst
                simp [hbc, hcb] at htu
                simp [hbc, hcb, ih bs cs hst htu]

theorem lexLe_antisymm : ∀ s t : List Char,
    lexLe s t = true → lexLe t s = true → s = t := by
  intro s
  induction s with
  | nil =>
    intro t _ hts
    cases t with
    | nil => rfl
    | cons b bs => simp [lexLe] at hts
  | cons a as ih =>
    intro t hst hts
    cases t with
    | nil => simp [lexLe] at hst
    | cons b bs =>
      simp only [lexLe] at hst hts
      by_cases hab : a < b
      · simp [hab, asymm hab] at hts
      · by_cases hba : b < a
        · simp [hab, hba] at hst
        · have : a = b := le_antisymm (not_lt.mp hba) (not_lt.mp hab)
          subst this
          simp [hab, hba] at hst hts
          rw [ih bs hst hts]

instance : IsTotal (List Char) lexRel := ⟨lexLe_total⟩

instance : IsTrans (List Char) lexRel := ⟨lexLe_trans⟩

instance : IsAntisymm (List Char) lexRel := ⟨lexLe_antisymm⟩

/-- Embeds the `Article` dataclass from `src/fetcher.py`. `published` is Unix
seconds (UTC). -/
structure Article where
  title : List Char
  url : List Char
  source_id : List Char
  source_name : List Char
  description : List Char
  published : Int
  summary : List Char
  matched_keywords : List (List Char)
deriving DecidableEq, Repr

/-- Embeds `_count_keyword_hits` from `src/filter.py`: the `Counter` keyed by
keyword, holding the occurrence count of each keyword (case-insensitive, after
normalization) that occurs at least once.  A `Counter` holds each key once, so
the keyword list is deduplicated; the resulting key order is irrelevant to
every consumer (a commutative sum and a set). -/
def _count_keyword_hits (text : List Char) (keywords : List (List Char)) :
    List (List Char × Nat) :=
  keywords.dedup.filterMap fun kw =>
    let count := countOccs (_normalize kw) (_normalize text)
    if 0 < count then some (kw, count) else none

/-- The keyword-match component of the score in `score_article`
(`src/filter.py`): title hits weigh 3.0, description hits weigh 1.0. -/
def keyword_component (article : Article) (keywords : List (List Char)) : ℚ :=
  ((_count_keyword_hits article.title keywords).map fun p => (p.2 : ℚ) * 3).sum
    + ((_count_keyword_hits article.description keywords).map fun p => (p.2 : ℚ) * 1).sum

/-- Embeds `score_article` from `src/filter.py`: keyword-match component plus
freshness boost, multiplied by the source-trust weight, together with the
sorted set of matched keywords. -/
def score_article (now : Int) (article : Article) (keywords : List (List Char)) :
    ℚ × List (List Char) :=
  let title_hits := _count_keyword_hits article.title keywords
  let desc_hits := _count_keyword_hits article.description keywords
  let keyword_score : ℚ :=
    ((title_hits.map fun p => (p.2 : ℚ) * 3).sum)
      + ((desc_hits.map fun p => (p.2 : ℚ) * 1).sum)
  let matched : List (List Char) :=
    (title_hits.map Prod.fst ++ desc_hits.map Prod.fst).dedup
  let age : Int := now - article.published
  let recency_boost : ℚ :=
    if age < 86400 then 5
    else if age < 604800 then 2
    else if age < 2592000 then 1/2
    else 0
  let source_weight : ℚ :=
    if "aws_".toList.isPrefixOf article.source_id
        || "databricks_".toList.isPrefixOf article.source_id then 13/10 else 1
  ((keyword_score + recency_boost) * source_weight, matched.insertionSort lexRel)

/-- Reference definition following the spec's wording (§4.1, C1): the final
score is `(keywordComponent + freshnessComponent) × trustMultiplier`, where
the keyword component is the sum over the (distinct) keywords of title
occurrences × 3.0 plus description occurrences × 1.0, the freshness boost is
+5.0 below 24 h, +2.0 below 7 d, +0.5 below 30 d, else +0.0, and the trust
multiplier is 1.3 for an official source-id prefix, else 1.0. -/
def specScore (now : Int) (a : Article) (keywords : List (List Char)) : ℚ :=
  let titleComponent : ℚ :=
    (keywords.dedup.map fun kw =>
      (countOccs (_normalize kw) (_normalize a.title) : ℚ) * 3).sum
  let descComponent : ℚ :=
    (keywords.dedup.map fun kw =>
      (countOccs (_normalize kw) (_normalize a.description) : ℚ) * 1).sum
  let freshness : ℚ :=
    if now - a.published < 86400 then 5
    else if now - a.published < 604800 then 2
    else if now - a.published < 2592000 then 1/2
    else 0
  let trust : ℚ :=
    if "aws_".toList.isPrefixOf a.source_id
        || "databricks_".toList.isPrefixOf a.source_id then 13/10 else 1
  (titleComponent + descComponent + freshness) * trust

/-- Reference definition following the spec's wording (C1): the sorted
deduplicated list of keywords that occur at least once in either normalized
field. -/
def specMatched (a : Article) (keywords : List (List Char)) : List (List Char) :=
  (keywords.dedup.filter fun kw =>
    decide (0 < countOccs (_normalize kw) (_normalize a.title))
      || decide (0 < countOccs (_normalize kw) (_normalize a.description))).insertionSort lexRel

/-- The sort order used by `filter_articles` (`src/filter.py`):
`scored.sort(key=lambda x: (x[0], x[1].published), reverse=True)`, i.e.
score descending, then published timestamp descending.  `scoredRel p q` says
`p` may come before `q`. -/
def scoredRel (p q : ℚ × Article) : Prop :=
  q.1 < p.1 ∨ (q.1 = p.1 ∧ q.2.published ≤ p.2.published)

instance : DecidableRel scoredRel := fun p q => by unfold scoredRel; infer_instance

instance : IsTotal (ℚ × Article) scoredRel := by
  constructor
  intro p q
  rcases lt_trichotomy p.1 q.1 with h | h | h
  · right; left; exact h
  · rcases le_total p.2.published q.2.published with h' | h'
    · right; right; exact ⟨h, h'⟩
    · left; right; exact ⟨h.symm, h'⟩
  · left; left; exact h

instance : IsTrans (ℚ × Article) scoredRel := by
  constructor
  rintro p q u (h | ⟨h, h'⟩) (g | ⟨g, g'⟩)
  · left; exact lt_trans g h
  · left; rwa [g]
  · left; rwa [← h]
  · right; exact ⟨g.trans h, g'.trans h'⟩

/-- Embeds `filter_articles` from `src/filter.py`: keep the articles whose
score is strictly positive (storing their matched keywords), sort by
score descending then published descending (stable), truncate to
`max_articles`. -/
def filter_articles (now : Int) (articles : List Article)
    (keywords : List (List Char)) (max_articles : Nat) : List Article :=
  let scored : List (ℚ × Article) := articles.filterMap fun article =>
    let sm := score_article now article keywords
    if 0 < sm.1 then some (sm.1, { article with matched_keywords := sm.2 }) else none
  let sorted := scored.insertionSort scoredRel
  (sorted.take max_articles).map Prod.snd

/-- The observable after-state of the caller's article list when
`filter_articles` returns: the Python loop mutates `article.matched_keywords`
in place for every article whose score is strictly positive (whether or not
the article survives the final truncation) and leaves the others untouched. -/
def filter_articles_post (now : Int) (articles : List Article)
    (keywords : List (List Char)) : List Article :=
  articles.map fun article =>
    let sm := score_article now article keywords
    if 0 < sm.1 then { article with matched_keywords := sm.2 } else article

/-- Embeds a Discord embed object built by `src/notifier.py` (one
"rich-message unit"). -/
structure Embed where
  title : List Char
  url : Option (List Char)
  description : List Char
  color : Nat
  footer_text : Option (List Char)
  timestamp : Option (List Char)
deriving DecidableEq, Repr

/-- Source-id → emoji mapping `_SOURCE_EMOJI` from `src/notifier.py`
(default "📄"). -/
def sourceEmoji (sid : List Char) : List Char :=
  if sid = "aws_whatsnew".toList then "☁️".toList
  else if sid = "aws_blog".toList then "📖".toList
  else if sid = "databricks_blog".toList then "🔥".toList
  else if sid = "databricks_release_notes".toList then "📋".toList
  else if sid = "dev_to".toList then "💻".toList
  else if sid = "medium_engineering".toList then "📰".toList
  else "📄".toList

/-- Source-id → embed color mapping `_SOURCE_COLOR` from `src/notifier.py`
(default `_DEFAULT_COLOR = 0x5865F2`). -/
def sourceColor (sid : List Char) : Nat :=
  if sid = "aws_whatsnew".toList then 0xFF9900
  else if sid = "aws_blog".toList then 0xFFD100
  else if sid = "databricks_blog".toList then 0xE8192C
  else if sid = "databricks_release_notes".toList then 0xC41230
  else if sid = "dev_to".toList then 0x0F0F0F
  else if sid = "medium_engineering".toList then 0x02B875
  else 0x5865F2

/-- The keyword-tag string: `" ".join(f"`{kw}`" for kw in matched)`
(backtick-wrapped tags joined by spaces). -/
def kwTagString (matched : List (List Char)) : List Char :=
  List.intercalate " ".toList (matched.map fun kw => "\x60".toList ++ kw ++ "\x60".toList)

/-- Per-article embed built by the loop in `_build_embeds`
(`src/notifier.py`).  `pubStr` models `Article.published_str` (JST time
formatting, a pure function of the timestamp). -/
def articleEmbed (pubStr : Int → List Char) (article : Article) : Embed :=
  let kw_str : List Char :=
    if article.matched_keywords ≠ [] then kwTagString article.matched_keywords else []
  let desc_parts : List (List Char) :=
    (if kw_str ≠ [] then ["🏷️ ".toList ++ kw_str] else [])
      ++ (if article.summary ≠ [] then ["🤖 **AI要約:** ".toList ++ article.summary] else [])
  let description : List Char :=
    if desc_parts ≠ [] then List.intercalate "\n".toList desc_parts else "説明なし".toList
  { title := sourceEmoji article.source_id ++ " ".toList ++ article.title
    url := some article.url
    description := description
    color := sourceColor article.source_id
    footer_text := some (article.source_name ++ "  •  ".toList ++ pubStr article.published)
    timestamp := none }

/-- Embeds `_build_embeds` from `src/notifier.py`: one header embed followed
by one embed per article, in input order.  `date_str` and `timestamp_str`
model the formatted JST clock values used by the header. -/
def _build_embeds (articles : List Article) (date_str timestamp_str : List Char)
    (pubStr : Int → List Char) : List Embed :=
  let header_embed : Embed :=
    { title := "📰 毎朝テックニュース ― ".toList ++ date_str
      url := none
      description :=
        "キーワード検索で収集した **".toList ++ (toString articles.length).toList
          ++ " 件** の記事です。\nAIによる要約付きで確認できます。".toList
      color := 0x5865F2
      footer_text := none
      timestamp := some timestamp_str }
  header_embed :: articles.map (articleEmbed pubStr)

/-- Helper for `chunksOf10`: structural recursion with `fuel ≥ length`. -/
def chunksGo : Nat → List Embed → List (List Embed)
  | _, [] => []
  | 0, _ :: _ => []
  | fuel + 1, x :: xs => (x :: xs.take 9) :: chunksGo fuel (xs.drop 9)

/-- The chunking loop of `send_notification` (`src/notifier.py`):
`for i in range(0, len(all_embeds), 10): chunk = all_embeds[i : i + 10]` —
the list sliced into consecutive chunks of at most 10 embeds. -/
def chunksOf10 (l : List Embed) : List (List Embed) :=
  chunksGo l.length l

/-- Embeds `send_notification` from `src/notifier.py`.  The network is
modelled by the oracle `post : Nat → Bool`, giving the outcome of the POST of
the i-th chunk (a `requests.RequestException` is `false`).  The result is
`none` when the function raises `EnvironmentError` (no webhook URL outside
dry-run), otherwise `some (success, chunks)` where `chunks` is the ordered
list of chunks actually POSTed. -/
def send_notification (articles : List Article) (webhook_url : List Char)
    (avatar_url : List Char) (dry_run : Bool) (date_str timestamp_str : List Char)
    (pubStr : Int → List Char) (post : Nat → Bool) :
    Option (Bool × List (List Embed)) :=
  if articles = [] then some (false, [])
  else
    let all_embeds := _build_embeds articles date_str timestamp_str pubStr
    if dry_run then some (true, [])
    else if webhook_url = [] then none
    else
      let chunks := chunksOf10 all_embeds
      let success := (chunks.enum.map fun p => post p.1).foldl (fun acc b => acc && b) true
      some (success, chunks)

/-- Python `str.strip()` (ASCII whitespace fragment): remove leading and
trailing whitespace. -/
def pyStrip (l : List Char) : List Char :=
  ((l.dropWhile isPySpace).reverse.dropWhile isPySpace).reverse

/-- Observable trace of one Provider Gateway `call`: the returned string, the
number of attempts actually made, and the sequence of sleeps requested (in
seconds) before each retry. -/
structure CallTrace where
  result : List Char
  attempts : Nat
  sleeps : List ℚ
deriving DecidableEq, Repr

/-- Outcome of one backend request for the OpenAI / Anthropic adapters, which
distinguish failures by exception type: `RateLimitError` (retried) vs
`APIError` (log and return ""). -/
inductive ChatResp where
  | success (text : List Char)
  | rateLimited
  | apiError
deriving DecidableEq

/-- The retry loop of `ChatGPTProvider.call` (`src/providers/chatgpt.py`),
with `_RETRY_MAX = 3` and linear backoff `_RETRY_DELAY_SEC * attempt`
(`_RETRY_DELAY_SEC = 2.0`).  `responses attempt` is the backend's outcome of
the given attempt; `fuel` is the number of loop iterations left. -/
def chatgptLoop (responses : Nat → ChatResp) : Nat → Nat → CallTrace
  | _, 0 => ⟨[], 0, []⟩
  | attempt, fuel + 1 =>
    match responses attempt with
    | .success t => ⟨pyStrip t, 1, []⟩
    | .apiError => ⟨[], 1, []⟩
    | .rateLimited =>
      let rest := chatgptLoop responses (attempt + 1) fuel
      ⟨rest.result, rest.attempts + 1, (2 : ℚ) * attempt :: rest.sleeps⟩

/-- Embeds `ChatGPTProvider.call` (`src/providers/chatgpt.py`): attempts run
from 1 to `_RETRY_MAX = 3`; exhaustion returns the empty string. -/
def chatgpt_call (responses : Nat → ChatResp) : CallTrace :=
  chatgptLoop responses 1 3

/-- The retry loop of `ClaudeProvider.call` (`src/providers/claude.py`):
identical policy to the ChatGPT adapter (`_RETRY_MAX = 3`,
`_RETRY_DELAY_SEC = 2.0`, linear backoff), with `anthropic.RateLimitError` /
`anthropic.APIError` in place of the OpenAI exceptions. -/
def claudeLoop (responses : Nat → ChatResp) : Nat → Nat → CallTrace
  | _, 0 => ⟨[], 0, []⟩
  | attempt, fuel + 1 =>
    match responses attempt with
    | .success t => ⟨pyStrip t, 1, []⟩
    | .apiError => ⟨[], 1, []⟩
    | .rateLimited =>
      let rest := claudeLoop responses (attempt + 1) fuel
      ⟨rest.result, rest.attempts + 1, (2 : ℚ) * attempt :: rest.sleeps⟩

/-- Embeds `ClaudeProvider.call` (`src/providers/claude.py`). -/
def claude_call (responses : Nat → ChatResp) : CallTrace :=
  claudeLoop responses 1 3

/-- Outcome of one backend request for the Gemini adapter, which catches every
exception and classifies it by the text of its message. -/
inductive GenResp where
  | success (text : List Char)
  | failure (msg : List Char)
deriving DecidableEq

/-- Python's substring test `pat in text` for strings. -/
def containsSub (pat : List Char) : List Char → Bool
  | [] => pat.isEmpty
  | c :: rest => pat.isPrefixOf (c :: rest) || containsSub pat rest

/-- Gemini's not-found classification (`src/providers/gemini.py`):
`"404" in error_str or "not found" in error_str.lower()`. -/
def geminiIsNotFound (msg : List Char) : Bool :=
  containsSub "404".toList msg || containsSub "not found".toList (msg.map Char.toLower)

/-- Gemini's rate-limit classification (`src/providers/gemini.py`):
`"429" in error_str or "rate" in error_str.lower() or "quota" in
error_str.lower()`. -/
def geminiIsRateLimited (msg : List Char) : Bool :=
  containsSub "429".toList msg || containsSub "rate".toList (msg.map Char.toLower)
    || containsSub "quota".toList (msg.map Char.toLower)

/-- The retry loop of `GeminiProvider.call` (`src/providers/gemini.py`):
`_RETRY_MAX = 5`, capped exponential backoff
`min(_RETRY_DELAY_BASE_SEC * 2^(attempt-1), _RETRY_DELAY_MAX_SEC)` with base
5.0 and cap 30.0; not-found errors and unclassified errors return ""
immediately. -/
def geminiLoop (responses : Nat → GenResp) : Nat → Nat → CallTrace
  | _, 0 => ⟨[], 0, []⟩
  | attempt, fuel + 1 =>
    match responses attempt with
    | .success t => ⟨pyStrip t, 1, []⟩
    | .failure msg =>
      if geminiIsNotFound msg then ⟨[], 1, []⟩
      else if geminiIsRateLimited msg then
        let wait : ℚ := min ((5 : ℚ) * 2 ^ (attempt - 1)) 30
        let rest := geminiLoop responses (attempt + 1) fuel
        ⟨rest.result, rest.attempts + 1, wait :: rest.sleeps⟩
      else ⟨[], 1, []⟩

/-- Embeds `GeminiProvider.call` (`src/providers/gemini.py`): attempts run
from 1 to `_RETRY_MAX = 5`; exhaustion returns the empty string. -/
def gemini_call (responses : Nat → GenResp) : CallTrace :=
  geminiLoop responses 1 5

/-- Embeds the pipeline control flow of `main` (`src/main.py`), as far as the
process exit status and the delivery attempt are concerned.  The result is
`(exit status, whether delivery was attempted)`, in stage order:

* `settings_ok = false` models `load_settings` finding no `settings.yaml` and
  calling `sys.exit(1)` before any work;
* `main` returns early — exit status 0, no delivery — when no articles were
  fetched (Step 1) or when no article matched the keywords (Step 2);
* Step 3: when AI summarization is enabled, `summarize_all` first constructs
  the provider; `provider_ok = false` models `get_provider` / the provider
  constructor raising (unknown provider name, or a missing credential such as
  `OPENAI_API_KEY` raising `EnvironmentError`), which propagates out of
  `main` — a non-zero interpreter exit before delivery.  Per-article
  generation failures inside `summarize_all` are soft (the adapters return
  strings, never raise) and only set `summary` fields, which the exit status
  does not depend on;
* Step 4: the dispatcher outcome is the oracle `send_result`: `some b` models
  `send_notification` returning `b` (`sys.exit(1)` on `False`), `none` models
  it raising (missing webhook URL), also a non-zero interpreter exit. -/
def mainRun (settings_ok : Bool) (all_articles : List Article)
    (keywords : List (List Char)) (now : Int) (max_articles : Nat)
    (ai_enabled : Bool) (provider_ok : Bool) (send_result : Option Bool) :
    Nat × Bool :=
  if settings_ok = false then (1, false)
  else if all_articles = [] then (0, false)
  else if filter_articles now all_articles keywords max_articles = [] then (0, false)
  else if ai_enabled && !provider_ok then (1, false)
  else
    match send_result with
    | none => (1, true)
    | some true => (0, true)
    | some false => (1, true)

theorem pyStrip_eq_rdropWhile (l : List Char) :
    pyStrip l = List.rdropWhile isPySpace (l.dropWhile isPySpace) := rfl

theorem dropWhile_rdropWhile_fixed (x : List Char)
    (hx : List.dropWhile isPySpace x = x) :
    List.dropWhile isPySpace (List.rdropWhile isPySpace x) = List.rdropWhile isPySpace x := by
  obtain ⟨t, ht⟩ := List.rdropWhile_prefix isPySpace x
  cases h : List.rdropWhile isPySpace x with
  | nil => rfl
  | cons a rest =>
    rw [h] at ht
    rw [List.cons_append] at ht
    subst ht
    by_cases hpa : isPySpace a = true
    · exfalso
      rw [List.dropWhile_cons_of_pos hpa] at hx
      have := (List.dropWhile_sublist (l := rest ++ t) isPySpace).length_le
      rw [hx] at this
      simp at this
    · exact List.dropWhile_cons_of_neg (by simp [hpa])

theorem pyStrip_idem (l : List Char) : pyStrip (pyStrip l) = pyStrip l := by
  rw [pyStrip_eq_rdropWhile, pyStrip_eq_rdropWhile,
    dropWhile_rdropWhile_fixed _ (List.dropWhile_idempotent _ _),
    List.rdropWhile_idempotent]

theorem chatgptLoop_result_stripped (r : Nat → ChatResp) :
    ∀ fuel attempt, pyStrip (chatgptLoop r attempt fuel).result
      = (chatgptLoop r attempt fuel).result := by
  intro fuel
  induction fuel with
  | zero => intro attempt; rfl
  | succ n ih =>
    intro attempt
    simp only [chatgptLoop]
    cases r attempt with
    | success t => exact pyStrip_idem t
    | rateLimited => exact ih (attempt + 1)
    | apiError => rfl

theorem claudeLoop_result_stripped (r : Nat → ChatResp) :
    ∀ fuel attempt, pyStrip (claudeLoop r attempt fuel).result
      = (claudeLoop r attempt fuel).result := by
  intro fuel
  induction fuel with
  | zero => intro attempt; rfl
  | succ n ih =>
    intro attempt
    simp only [claudeLoop]
    cases r attempt with
    | success t => exact pyStrip_idem t
    | rateLimited => exact ih (attempt + 1)
    | apiError => rfl

theorem geminiLoop_result_stripped (g : Nat → GenResp) :
    ∀ fuel attempt, pyStrip (geminiLoop g attempt fuel).result
      = (geminiLoop g attempt fuel).result := by
  intro fuel
  induction fuel with
  | zero => intro attempt; rfl
  | succ n ih =>
    intro attempt
    simp only [geminiLoop]
    cases g attempt with
    | success t => exact pyStrip_idem t
    | failure m =>
      dsimp only
      by_cases h1 : geminiIsNotFound m = true
      · rw [if_pos h1]; rfl
      · rw [if_neg h1]
        by_cases h2 : geminiIsRateLimited m = true
        · rw [if_pos h2]; exact ih (attempt + 1)
        · rw [if_neg h2]; rfl

theorem chatgptLoop_all_rate (r : Nat → ChatResp) (h : ∀ i, r i = .rateLimited) :
    ∀ fuel attempt, (chatgptLoop r attempt fuel).result = [] := by
  intro fuel
  induction fuel with
  | zero => intro attempt; rfl
  | succ n ih =>
    intro attempt
    simp only [chatgptLoop, h attempt]
    exact ih (attempt + 1)

theorem claudeLoop_all_rate (r : Nat → ChatResp) (h : ∀ i, r i = .rateLimited) :
    ∀ fuel attempt, (claudeLoop r attempt fuel).result = [] := by
  intro fuel
  induction fuel with
  | zero => intro attempt; rfl
  | succ n ih =>
    intro attempt
    simp only [claudeLoop, h attempt]
    exact ih (attempt + 1)

theorem geminiLoop_all_failure (g : Nat → GenResp) (m : List Char)
    (h : ∀ i, g i = .failure m) :
    ∀ fuel attempt, (geminiLoop g attempt fuel).result = [] := by
  intro fuel
  induction fuel with
  | zero => intro attempt; rfl
  | succ n ih =>
    intro attempt
    simp only [geminiLoop, h attempt]
    by_cases h1 : geminiIsNotFound m = true
    · rw [if_pos h1]
    · rw [if_neg h1]
      by_cases h2 : geminiIsRateLimited m = true
      · rw [if_pos h2]; exact ih (attempt + 1)
      · rw [if_neg h2]

/-- C5: every Provider Gateway call returns a string and never propagates an
exception (the embedded calls are total functions into `CallTrace`): the
result is either the empty string (soft failure) or non-empty text already
trimmed of surrounding whitespace; and exhausting the maximum number of
attempts on repeated rate-limited failures returns the empty string rather
than raising — for all three backend adapters. -/
theorem provider_call_result_spec :
    ∀ (r c : Nat → ChatResp) (g : Nat → GenResp) (m : List Char),
      ((chatgpt_call r).result = []
        ∨ ((chatgpt_call r).result ≠ []
            ∧ pyStrip (chatgpt_call r).result = (chatgpt_call r).result))
      ∧ ((claude_call c).result = []
        ∨ ((claude_call c).result ≠ []
            ∧ pyStrip (claude_call c).result = (claude_call c).result))
      ∧ ((gemini_call g).result = []
        ∨ ((gemini_call g).result ≠ []
            ∧ pyStrip (gemini_call g).result = (gemini_call g).result))
      ∧ ((∀ i, r i = .rateLimited) → (chatgpt_call r).result = [])
      ∧ ((∀ i, c i = .rateLimited) → (claude_call c).result = [])
      ∧ ((∀ i, g i = .failure m) → (gemini_call g).result = []) := by
  intro r c g m
  refine ⟨?_, ?_, ?_, ?_, ?_, ?_⟩
  · by_cases h : (chatgpt_call r).result = []
    · exact Or.inl h
    · exact Or.inr ⟨h, chatgptLoop_result_stripped r 3 1⟩
  · by_cases h : (claude_call c).result = []
    · exact Or.inl h
    · exact Or.inr ⟨h, claudeLoop_result_stripped c 3 1⟩
  · by_cases h : (gemini_call g).result = []
    · exact Or.inl h
    · exact Or.inr ⟨h, geminiLoop_result_stripped g 5 1⟩
  · intro h; exact chatgptLoop_all_rate r h 3 1
  · intro h; exact claudeLoop_all_rate c h 3 1
  · intro h; exact geminiLoop_all_failure g m h 5 1

/-- Witness for C5: a concrete all-rate-limited response sequence for each
backend; every call returns the empty string. -/
theorem provider_call_result_spec_witness :
    (chatgpt_call fun _ => .rateLimited).result = []
      ∧ (claude_call fun _ => .rateLimited).result = []
      ∧ (gemini_call fun _ => .failure "429 quota exceeded".toList).result = [] := by
  obtain ⟨-, -, -, h1, h2, h3⟩ :=
    provider_call_result_spec (fun _ => .rateLimited) (fun _ => .rateLimited)
      (fun _ => .failure "429 quota exceeded".toList) "429 quota exceeded".toList
  exact ⟨h1 fun i => rfl, h2 fun i => rfl, h3 fun i => rfl⟩

/-- C6: with the first two attempts rate-limited and the third successful,
each backend adapter makes exactly 3 attempts and the total requested backoff
equals its configured schedule: linear `2.0 × attempt` for the ChatGPT and
Claude adapters (2.0 + 4.0 = 6.0 s), capped exponential
`min(5.0 × 2^(attempt−1), 30.0)` for the Gemini adapter
(5.0 + 10.0 = 15.0 s). -/
theorem provider_retry_backoff_schedule :
    ∀ (r c : Nat → ChatResp) (g : Nat → GenResp) (t₁ t₂ t₃ m₁ m₂ : List Char),
      (r 1 = .rateLimited → r 2 = .rateLimited → r 3 = .success t₁ →
        (chatgpt_call r).attempts = 3 ∧ (chatgpt_call r).sleeps.sum = 6)
      ∧ (c 1 = .rateLimited → c 2 = .rateLimited → c 3 = .success t₂ →
        (claude_call c).attempts = 3 ∧ (claude_call c).sleeps.sum = 6)
      ∧ (g 1 = .failure m₁ → geminiIsNotFound m₁ = false → geminiIsRateLimited m₁ = true →
          g 2 = .failure m₂ → geminiIsNotFound m₂ = false → geminiIsRateLimited m₂ = true →
          g 3 = .success t₃ →
        (gemini_call g).attempts = 3 ∧ (gemini_call g).sleeps.sum = 15) := by
  intro r c g t₁ t₂ t₃ m₁ m₂
  refine ⟨?_, ?_, ?_⟩
  · intro h1 h2 h3
    simp only [chatgpt_call, chatgptLoop, h1, h2, h3]
    norm_num
  · intro h1 h2 h3
    simp only [claude_call, claudeLoop, h1, h2, h3]
    norm_num
  · intro h1 hn1 hr1 h2 hn2 hr2 h3
    simp only [gemini_call, geminiLoop, h1, h2, h3, hn1, hr1, hn2, hr2]
    norm_num

/-- Witness for C6: concrete response sequences realizing two rate limits
followed by success, for all three adapters. -/
theorem provider_retry_backoff_schedule_witness :
    (chatgpt_call fun i => if i ≤ 2 then .rateLimited else .success "ok".toList).attempts = 3
      ∧ (chatgpt_call fun i => if i ≤ 2 then .rateLimited
          else .success "ok".toList).sleeps.sum = 6
      ∧ (claude_call fun i => if i ≤ 2 then .rateLimited else .success "ok".toList).attempts = 3
      ∧ (claude_call fun i => if i ≤ 2 then .rateLimited
          else .success "ok".toList).sleeps.sum = 6
      ∧ (gemini_call fun i => if i ≤ 2 then .failure "429".toList
          else .success "ok".toList).attempts = 3
      ∧ (gemini_call fun i => if i ≤ 2 then .failure "429".toList
          else .success "ok".toList).sleeps.sum = 15 := by
  obtain ⟨hc, hk, hg⟩ :=
    provider_retry_backoff_schedule
      (fun i => if i ≤ 2 then .rateLimited else .success "ok".toList)
      (fun i => if i ≤ 2 then .rateLimited else .success "ok".toList)
      (fun i => if i ≤ 2 then .failure "429".toList else .success "ok".toList)
      "ok".toList "ok".toList "ok".toList "429".toList "429".toList
  obtain ⟨hc1, hc2⟩ := hc rfl rfl rfl
  obtain ⟨hk1, hk2⟩ := hk rfl rfl rfl
  obtain ⟨hg1, hg2⟩ := hg rfl (by decide) (by decide) rfl (by decide) (by decide) rfl
  exact ⟨hc1, hc2, hk1, hk2, hg1, hg2⟩

/-- C7: a first-attempt permanent (not-found / misconfigured) backend error
makes exactly 1 attempt, returns the empty string immediately, and requests
no sleep — for all three adapters (the ChatGPT/Claude adapters classify all
permanent errors as `APIError`). -/
theorem provider_permanent_error_no_retry :
    ∀ (r c : Nat → ChatResp) (g : Nat → GenResp) (m : List Char),
      (r 1 = .apiError → chatgpt_call r = ⟨[], 1, []⟩)
      ∧ (c 1 = .apiError → claude_call c = ⟨[], 1, []⟩)
      ∧ (g 1 = .failure m → geminiIsNotFound m = true → gemini_call g = ⟨[], 1, []⟩) := by
  intro r c g m
  refine ⟨?_, ?_, ?_⟩
  · intro h1
    simp only [chatgpt_call, chatgptLoop, h1]
  · intro h1
    simp only [claude_call, claudeLoop, h1]
  · intro h1 hn
    simp [gemini_call, geminiLoop, h1, hn]

/-- Witness for C7: a concrete not-found failure on the first attempt for
each adapter; each call returns the empty string after one attempt with no
sleeps. -/
theorem provider_permanent_error_no_retry_witness :
    chatgpt_call (fun _ => .apiError) = ⟨[], 1, []⟩
      ∧ claude_call (fun _ => .apiError) = ⟨[], 1, []⟩
      ∧ gemini_call (fun _ => .failure "404 model not found".toList) = ⟨[], 1, []⟩ := by
  obtain ⟨h1, h2, h3⟩ :=
    provider_permanent_error_no_retry (fun _ => .apiError) (fun _ => .apiError)
      (fun _ => .failure "404 model not found".toList) "404 model not found".toList
  exact ⟨h1 rfl, h2 rfl, h3 rfl (by decide)⟩

theorem chunksGo_join : ∀ (fuel : Nat) (l : List Embed), l.length ≤ fuel →
    (chunksGo fuel l).flatten = l := by
  intro fuel
  induction fuel with
  | zero =>
    intro l h
    cases l with
    | nil => rfl
    | cons x xs => simp at h
  | succ n ih =>
    intro l h
    cases l with
    | nil => rfl
    | cons x xs =>
      simp only [chunksGo, List.flatten_cons]
      rw [ih (xs.drop 9) (by simp [List.length_drop]; simp at h; omega)]
      simp [List.cons_append, List.take_append_drop]
  
theorem chunksGo_count : ∀ (fuel : Nat) (l : List Embed), l.length ≤ fuel →
    (chunksGo fuel l).length = (l.length + 9) / 10 := by
  intro fuel
  induction fuel with
  | zero =>
    intro l h
    cases l with
    | nil => rfl
    | cons x xs => simp at h
  | succ n ih =>
    intro l h
    cases l with
    | nil => rfl
    | cons x xs =>
      simp only [chunksGo, List.length_cons]
      rw [ih (xs.drop 9) (by simp [List.length_drop]; simp at h; omega)]
      simp only [List.length_drop]
      omega

theorem chunksGo_sizes : ∀ (fuel : Nat) (l : List Embed), l.length ≤ fuel →
    ∀ c ∈ chunksGo fuel l, c.length ≤ 10 := by
  intro fuel
  induction fuel with
  | zero =>
    intro l h c hc
    cases l with
    | nil => simp [chunksGo] at hc
    | cons x xs => simp at h
  | succ n ih =>
    intro l h c hc
    cases l with
    | nil => simp [chunksGo] at hc
    | cons x xs =>
      simp only [chunksGo, List.mem_cons] at hc
      rcases hc with rfl | hc
      · simp only [List.length_cons, List.length_take]
        omega
      · exact ih (xs.drop 9) (by simp [List.length_drop]; simp at h; omega) c hc

theorem chunksOf10_len11 (l : List Embed) (h : l.length = 11) :
    (chunksOf10 l).map List.length = [10, 1] := by
  cases l with
  | nil => simp at h
  | cons x xs =>
    have hxs : xs.length = 10 := by simp at h; omega
    have hd : (xs.drop 9).length = 1 := by simp [List.length_drop, hxs]
    cases hdrop : xs.drop 9 with
    | nil => rw [hdrop] at hd; simp at hd
    | cons y ys =>
      have hys : ys = [] := by
        rw [hdrop] at hd
        simp at hd
        exact hd
      subst hys
      simp only [chunksOf10, List.length_cons, hxs]
      simp only [chunksGo, hdrop]
      simp [List.length_take, hxs]

/-- C4: for every non-empty list of N selected candidates the Dispatcher
builds exactly N+1 message units (one header plus one per candidate, in input
order) and partitions them, in order, into ceil((N+1)/10) chunks of at most
10 units each whose sizes sum to N+1; for 10 candidates this yields 11 units
delivered as 2 messages of sizes 10 and 1. -/
theorem dispatcher_units_and_chunks :
    ∀ (articles : List Article) (date_str timestamp_str : List Char)
      (pubStr : Int → List Char),
      articles ≠ [] →
      (_build_embeds articles date_str timestamp_str pubStr).length = articles.length + 1
      ∧ (chunksOf10 (_build_embeds articles date_str timestamp_str pubStr)).length
          = (articles.length + 1 + 9) / 10
      ∧ (∀ c ∈ chunksOf10 (_build_embeds articles date_str timestamp_str pubStr),
          c.length ≤ 10)
      ∧ ((chunksOf10 (_build_embeds articles date_str timestamp_str pubStr)).map
          List.length).sum = articles.length + 1
      ∧ (chunksOf10 (_build_embeds articles date_str timestamp_str pubStr)).flatten
          = _build_embeds articles date_str timestamp_str pubStr
      ∧ (articles.length = 10 →
          (chunksOf10 (_build_embeds articles date_str timestamp_str pubStr)).map
            List.length = [10, 1]) := by
  intro articles date_str timestamp_str pubStr _
  have hlen : (_build_embeds articles date_str timestamp_str pubStr).length
      = articles.length + 1 := by
    simp [_build_embeds]
  have hfuel : (_build_embeds articles date_str timestamp_str pubStr).length
      ≤ (_build_embeds articles date_str timestamp_str pubStr).length := le_refl _
  refine ⟨hlen, ?_, ?_, ?_, ?_, ?_⟩
  · rw [chunksOf10, chunksGo_count _ _ hfuel, hlen]
  · intro c hc
    exact chunksGo_sizes _ _ hfuel c hc
  · rw [← List.length_flatten, chunksOf10, chunksGo_join _ _ hfuel, hlen]
  · rw [chunksOf10]
    exact chunksGo_join _ _ hfuel
  · intro h10
    exact chunksOf10_len11 _ (by rw [hlen, h10])

/-- Witness for C4: ten concrete candidates yield eleven units split into two
chunks of sizes 10 and 1. -/
theorem dispatcher_units_and_chunks_witness :
    (_build_embeds (List.replicate 10 ⟨"t".toList, "u".toList, "dev_to".toList,
        "d".toList, "x".toList, 0, [], []⟩) [] [] fun _ => []).length = 11
      ∧ (chunksOf10 (_build_embeds (List.replicate 10 ⟨"t".toList, "u".toList,
          "dev_to".toList, "d".toList, "x".toList, 0, [], []⟩) [] [] fun _ => [])).map
          List.length = [10, 1] := by
  obtain ⟨h1, -, -, -, -, h6⟩ :=
    dispatcher_units_and_chunks
      (List.replicate 10 ⟨"t".toList, "u".toList, "dev_to".toList, "d".toList,
        "x".toList, 0, [], []⟩) [] [] (fun _ => []) (by decide)
  exact ⟨by rw [h1]; decide, h6 (by decide)⟩

theorem foldl_and_eq_all : ∀ (l : List Bool) (acc : Bool),
    l.foldl (fun a b => a && b) acc = (acc && l.all id) := by
  intro l
  induction l with
  | nil => intro acc; simp
  | cons x xs ih =>
    intro acc
    simp only [List.foldl_cons, List.all_cons, ih, id, Bool.and_assoc]

/-- C3: the Dispatcher's overall result is the logical AND of all per-chunk
delivery outcomes; it posts all chunks in order whatever the individual
outcomes are (one chunk's failure never prevents the remaining chunks); and
an empty candidate list reports failure without attempting any delivery. -/
theorem dispatcher_success_and_resilience :
    ∀ (articles : List Article) (webhook_url avatar_url : List Char)
      (dry_run : Bool) (date_str timestamp_str : List Char)
      (pubStr : Int → List Char) (post : Nat → Bool),
      (articles = [] →
        send_notification articles webhook_url avatar_url dry_run date_str
          timestamp_str pubStr post = some (false, []))
      ∧ (articles ≠ [] → dry_run = false → webhook_url ≠ [] →
        ∃ b, send_notification articles webhook_url avatar_url dry_run date_str
            timestamp_str pubStr post
          = some (b, chunksOf10 (_build_embeds articles date_str timestamp_str pubStr))
          ∧ (b = true ↔ ∀ i <
              (chunksOf10 (_build_embeds articles date_str timestamp_str pubStr)).length,
              post i = true)) := by
  intro articles webhook_url avatar_url dry_run date_str timestamp_str pubStr post
  constructor
  · intro h
    simp [send_notification, h]
  · intro hne hdry hurl
    refine ⟨((List.range (chunksOf10 (_build_embeds articles date_str timestamp_str
        pubStr)).length).map post).all id, ?_, ?_⟩
    · simp only [send_notification, if_neg hne, hdry, Bool.false_eq_true, if_false,
        if_neg hurl]
      have hmap : ((chunksOf10 (_build_embeds articles date_str timestamp_str
          pubStr)).enum.map fun p => post p.1)
          = (List.range (chunksOf10 (_build_embeds articles date_str timestamp_str
              pubStr)).length).map post := by
        rw [show (fun p : Nat × List Embed => post p.1) = post ∘ Prod.fst from rfl,
          ← List.map_map, List.enum_map_fst]
      rw [hmap, foldl_and_eq_all, Bool.true_and]
    · rw [List.all_eq_true]
      constructor
      · intro h i hi
        exact h (post i) (List.mem_map.mpr ⟨i, List.mem_range.mpr hi, rfl⟩)
      · intro h b hb
        obtain ⟨i, hi, rfl⟩ := List.mem_map.mp hb
        exact h i (List.mem_range.mp hi)

/-- Witness for C3: a singleton candidate list with an always-successful
post oracle reports success and posts exactly the chunked embeds; the empty
candidate list reports failure without delivery. -/
theorem dispatcher_success_and_resilience_witness :
    send_notification [] "hook".toList [] false [] [] (fun _ => []) (fun _ => true)
        = some (false, [])
      ∧ send_notification [⟨"t".toList, "u".toList, "dev_to".toList, "d".toList,
          "x".toList, 0, [], []⟩] "hook".toList [] false [] [] (fun _ => [])
          (fun _ => true)
        = some (true, chunksOf10 (_build_embeds [⟨"t".toList, "u".toList,
            "dev_to".toList, "d".toList, "x".toList, 0, [], []⟩] [] [] fun _ => [])) := by
  constructor
  · exact (dispatcher_success_and_resilience [] "hook".toList [] false [] []
      (fun _ => []) (fun _ => true)).1 rfl
  · obtain ⟨b, hb, hiff⟩ :=
      (dispatcher_success_and_resilience [⟨"t".toList, "u".toList, "dev_to".toList,
          "d".toList, "x".toList, 0, [], []⟩] "hook".toList [] false [] []
          (fun _ => []) (fun _ => true)).2
        (by decide) rfl (by decide)
    have hbtrue : b = true := hiff.mpr fun i _ => rfl
    rw [hbtrue] at hb
    exact hb

/-- Counterexample to C8: a run with valid settings and a working provider
in which ingestion yields no candidates at all terminates with exit status
zero (and without attempting delivery), not with the non-zero status the
claim asserts. -/
theorem mainRun_empty_ingestion_exits_zero :
    mainRun true [] [] 0 10 true true (some true) = (0, false) := rfl

/-- C8 (amended): when ingestion yields no candidates, or no candidate
passes the keyword filter (selection is empty), `main` returns early: once
settings loading has succeeded, the process terminates with exit status zero
— not a run-level failure — and never attempts delivery, whatever the AI
configuration, provider state and dispatcher outcome would have been. -/
theorem mainRun_empty_pipeline_exits_zero :
    ∀ (all_articles : List Article) (keywords : List (List Char)) (now : Int)
      (max_articles : Nat) (ai_enabled provider_ok : Bool)
      (send_result : Option Bool),
      (all_articles = []
        ∨ filter_articles now all_articles keywords max_articles = []) →
      mainRun true all_articles keywords now max_articles ai_enabled provider_ok
        send_result = (0, false) := by
  intro all_articles keywords now max_articles ai_enabled provider_ok send_result h
  rcases h with h | h
  · simp [mainRun, h]
  · rcases heq : all_articles with _ | ⟨a, rest⟩
    · simp [mainRun]
    · rw [← heq]
      rw [heq] at h
      simp [mainRun, heq, h]

/-- Witness for C8 (amended): the empty ingestion result exits with status
zero and no delivery attempt. -/
theorem mainRun_empty_pipeline_exits_zero_witness :
    mainRun true [] ["ai".toList] 99 10 true false (some false) = (0, false) :=
  mainRun_empty_pipeline_exits_zero [] ["ai".toList] 99 10 true false (some false)
    (Or.inl rfl)

theorem sum_hits_eq (g : List Char → Nat) (w : ℚ) :
    ∀ l : List (List Char),
      ((l.filterMap fun kw => if 0 < g kw then some (kw, g kw) else none).map
        fun p => (p.2 : ℚ) * w).sum
      = (l.map fun kw => (g kw : ℚ) * w).sum := by
  intro l
  induction l with
  | nil => rfl
  | cons x xs ih =>
    by_cases h : 0 < g x
    · have hstep : List.filterMap (fun kw => if 0 < g kw then some (kw, g kw) else none)
          (x :: xs)
          = (x, g x) :: List.filterMap (fun kw => if 0 < g kw then some (kw, g kw)
              else none) xs := by
        rw [List.filterMap_cons, if_pos h]
      rw [hstep, List.map_cons, List.sum_cons, List.map_cons, List.sum_cons, ih]
    · have hg : g x = 0 := by omega
      have hstep : List.filterMap (fun kw => if 0 < g kw then some (kw, g kw) else none)
          (x :: xs)
          = List.filterMap (fun kw => if 0 < g kw then some (kw, g kw) else none) xs := by
        rw [List.filterMap_cons, if_neg h]
      rw [hstep, List.map_cons, List.sum_cons, ih, hg]
      simp

theorem mem_hits_keys (g : List Char → Nat) (s : List Char) :
    ∀ l : List (List Char),
      (s ∈ (l.filterMap fun kw => if 0 < g kw then some (kw, g kw) else none).map
        Prod.fst)
      ↔ s ∈ l ∧ 0 < g s := by
  intro l
  induction l with
  | nil => simp
  | cons x xs ih =>
    by_cases h : 0 < g x
    · have hstep : List.filterMap (fun kw => if 0 < g kw then some (kw, g kw) else none)
          (x :: xs)
          = (x, g x) :: List.filterMap (fun kw => if 0 < g kw then some (kw, g kw)
              else none) xs := by
        rw [List.filterMap_cons, if_pos h]
      rw [hstep, List.map_cons]
      simp only [List.mem_cons, ih]
      constructor
      · rintro (rfl | ⟨hs, hg⟩)
        · exact ⟨Or.inl rfl, h⟩
        · exact ⟨Or.inr hs, hg⟩
      · rintro ⟨rfl | hs, hg⟩
        · exact Or.inl rfl
        · exact Or.inr ⟨hs, hg⟩
    · have hstep : List.filterMap (fun kw => if 0 < g kw then some (kw, g kw) else none)
          (x :: xs)
          = List.filterMap (fun kw => if 0 < g kw then some (kw, g kw) else none) xs := by
        rw [List.filterMap_cons, if_neg h]
      rw [hstep]
      simp only [List.mem_cons, ih]
      constructor
      · rintro ⟨hs, hg⟩
        exact ⟨Or.inr hs, hg⟩
      · rintro ⟨rfl | hs, hg⟩
        · omega
        · exact ⟨hs, hg⟩

theorem insertionSort_eq_of_mem_iff {l₁ l₂ : List (List Char)}
    (h₁ : l₁.Nodup) (h₂ : l₂.Nodup) (hmem : ∀ s, s ∈ l₁ ↔ s ∈ l₂) :
    l₁.insertionSort lexRel = l₂.insertionSort lexRel := by
  have hp : List.Perm l₁ l₂ := (List.perm_ext_iff_of_nodup h₁ h₂).mpr hmem
  have hps : List.Perm (l₁.insertionSort lexRel) (l₂.insertionSort lexRel) :=
    (List.perm_insertionSort lexRel l₁).trans
      (hp.trans (List.perm_insertionSort lexRel l₂).symm)
  exact List.eq_of_perm_of_sorted hps
    (List.sorted_insertionSort lexRel l₁) (List.sorted_insertionSort lexRel l₂)

/-- C1: `score_article` equals the reference definition for every candidate
and keyword list — final score
`(keywordComponent + freshnessComponent) × trustMultiplier` with title hits
× 3.0, description hits × 1.0, tiered freshness boost and official-prefix
trust multiplier, together with the sorted deduplicated list of keywords
occurring in either normalized field; and on the spec's scenario (title
"AI AI news", description containing "cloud" once, keywords ["AI","cloud"],
published 1 hour ago, non-official source) it returns score 12.0 and matched
["AI","cloud"]. -/
theorem score_article_matches_reference :
    (∀ (now : Int) (a : Article) (keywords : List (List Char)),
      score_article now a keywords = (specScore now a keywords, specMatched a keywords))
    ∧ score_article 3600 ⟨"AI AI news".toList, "u".toList, "dev_to".toList, "d".toList,
        "new cloud update".toList, 0, [], []⟩ ["AI".toList, "cloud".toList]
      = (12, ["AI".toList, "cloud".toList]) := by
  constructor
  · intro now a keywords
    unfold score_article specScore specMatched _count_keyword_hits
    dsimp only
    rw [Prod.mk.injEq]
    constructor
    · rw [sum_hits_eq (fun kw => countOccs (_normalize kw) (_normalize a.title)) 3,
          sum_hits_eq (fun kw => countOccs (_normalize kw) (_normalize a.description)) 1]
    · apply insertionSort_eq_of_mem_iff
      · exact List.nodup_dedup _
      · exact (List.nodup_dedup _).filter _
      · intro s
        simp only [List.mem_dedup, List.mem_append, mem_hits_keys, List.mem_filter,
          Bool.or_eq_true, decide_eq_true_eq]
        tauto
  · have hT : _count_keyword_hits "AI AI news".toList ["AI".toList, "cloud".toList]
        = [("AI".toList, 2)] := by decide
    have hD : _count_keyword_hits "new cloud update".toList
        ["AI".toList, "cloud".toList] = [("cloud".toList, 1)] := by decide
    unfold score_article
    dsimp only
    rw [hT, hD]
    rw [Prod.mk.injEq]
    constructor
    · norm_num
      decide
    · decide

theorem sum_map_congr_single :
    ∀ (l : List (List Char)), l.Nodup → ∀ (kw : List Char), kw ∈ l →
      ∀ (f g : List Char → ℚ), (∀ x ∈ l, x ≠ kw → f x = g x) →
      (l.map f).sum = (l.map g).sum + (f kw - g kw) := by
  intro l
  induction l with
  | nil => intro _ kw hkw; simp at hkw
  | cons x xs ih =>
    intro hnd kw hkw f g hfg
    rcases List.mem_cons.mp hkw with rfl | hkw'
    · have hxs : ∀ y ∈ xs, f y = g y := by
        intro y hy
        refine hfg y (List.mem_cons_of_mem _ hy) ?_
        rintro rfl
        exact (List.nodup_cons.mp hnd).1 hy
      have : (xs.map f).sum = (xs.map g).sum := by
        rw [List.map_congr_left hxs]
      simp only [List.map_cons, List.sum_cons, this]
      ring
    · have hx : f x = g x := by
        refine hfg x (List.mem_cons_self _ _) ?_
        rintro rfl
        exact (List.nodup_cons.mp hnd).1 hkw'
      have := ih (List.nodup_cons.mp hnd).2 kw hkw' f g
        (fun y hy hne => hfg y (List.mem_cons_of_mem _ hy) hne)
      simp only [List.map_cons, List.sum_cons, this, hx]
      ring

/-- Counterexample to C10: doubling the single title occurrence of the
keyword "ai" (title "ai" → "ai ai", all else equal) does not increase the
keyword-match component by 2 × 3.0: the component goes from 3.0 to 6.0, an
increase of 3.0. -/
theorem keyword_component_double_counterexample :
    countOccs (_normalize "ai".toList) (_normalize "ai ai".toList) = 2
    ∧ countOccs (_normalize "ai".toList) (_normalize "ai".toList) = 1
    ∧ ¬ (keyword_component ⟨"ai ai".toList, [], [], [], [], 0, [], []⟩ ["ai".toList]
        = keyword_component ⟨"ai".toList, [], [], [], [], 0, [], []⟩ ["ai".toList]
          + 2 * 3) := by
  refine ⟨by decide, by decide, ?_⟩
  have h2 : _count_keyword_hits "ai ai".toList ["ai".toList]
      = [("ai".toList, 2)] := by decide
  have h1 : _count_keyword_hits "ai".toList ["ai".toList]
      = [("ai".toList, 1)] := by decide
  have h0 : _count_keyword_hits [] ["ai".toList] = [] := by decide
  unfold keyword_component
  dsimp only
  rw [h2, h1, h0]
  norm_num

/-- C10 (amended): doubling a keyword's number of title occurrences from one
to two (all other fields and keyword occurrences held equal) raises that
keyword's title contribution from 1 × 3.0 to 2 × 3.0, i.e. increases the
keyword-match component by exactly 1 × 3.0. -/
theorem keyword_component_title_double :
    ∀ (a₁ a₂ : Article) (kws : List (List Char)) (kw : List Char),
      kw ∈ kws →
      countOccs (_normalize kw) (_normalize a₁.title) = 1 →
      countOccs (_normalize kw) (_normalize a₂.title) = 2 →
      (∀ kw' ∈ kws, kw' ≠ kw →
        countOccs (_normalize kw') (_normalize a₂.title)
          = countOccs (_normalize kw') (_normalize a₁.title)) →
      a₂.description = a₁.description →
      keyword_component a₂ kws = keyword_component a₁ kws + 1 * 3 := by
  intro a₁ a₂ kws kw hkw h1 h2 hoth hdesc
  unfold keyword_component _count_keyword_hits
  dsimp only
  rw [sum_hits_eq (fun kw => countOccs (_normalize kw) (_normalize a₂.title)) 3,
      sum_hits_eq (fun kw => countOccs (_normalize kw) (_normalize a₂.description)) 1,
      sum_hits_eq (fun kw => countOccs (_normalize kw) (_normalize a₁.title)) 3,
      sum_hits_eq (fun kw => countOccs (_normalize kw) (_normalize a₁.description)) 1]
  rw [hdesc]
  have hsum := sum_map_congr_single kws.dedup (List.nodup_dedup kws) kw
    (List.mem_dedup.mpr hkw)
    (fun kw' => (countOccs (_normalize kw') (_normalize a₂.title) : ℚ) * 3)
    (fun kw' => (countOccs (_normalize kw') (_normalize a₁.title) : ℚ) * 3)
    (fun x hx hne => by dsimp only; rw [hoth x (List.mem_dedup.mp hx) hne])
  rw [hsum]
  dsimp only
  rw [h1, h2]
  ring

/-- Witness for C10 (amended): titles "ai" vs "ai ai" with keyword list
["ai"]; the keyword component rises by exactly 3.0. -/
theorem keyword_component_title_double_witness :
    keyword_component ⟨"ai ai".toList, [], [], [], [], 0, [], []⟩ ["ai".toList]
      = keyword_component ⟨"ai".toList, [], [], [], [], 0, [], []⟩ ["ai".toList]
        + 1 * 3 :=
  keyword_component_title_double
    ⟨"ai".toList, [], [], [], [], 0, [], []⟩
    ⟨"ai ai".toList, [], [], [], [], 0, [], []⟩
    ["ai".toList] "ai".toList (by decide) (by decide) (by decide)
    (by decide) rfl

theorem score_article_matched_irrel (now : Int) (a : Article) (m : List (List Char))
    (kws : List (List Char)) :
    score_article now { a with matched_keywords := m } kws = score_article now a kws := rfl

theorem mem_filter_articles (now : Int) (articles : List Article)
    (kws : List (List Char)) (maxN : Nat) (b : Article) :
    b ∈ filter_articles now articles kws maxN →
    ∃ a ∈ articles, 0 < (score_article now a kws).1
      ∧ b = { a with matched_keywords := (score_article now a kws).2 } := by
  intro hb
  unfold filter_articles at hb
  obtain ⟨p, hp, rfl⟩ := List.mem_map.mp hb
  have hp2 := List.mem_of_mem_take hp
  rw [List.mem_insertionSort] at hp2
  obtain ⟨a, ha, hfa⟩ := List.mem_filterMap.mp hp2
  dsimp only at hfa
  by_cases hpos : 0 < (score_article now a kws).1
  · rw [if_pos hpos] at hfa
    obtain rfl := Option.some.inj hfa
    exact ⟨a, ha, hpos, rfl⟩
  · rw [if_neg hpos] at hfa
    exact absurd hfa (by simp)

theorem score_eval_single : score_article 0 ⟨"ai".toList, "u1".toList, "s".toList,
    "n".toList, [], 0, [], []⟩ ["ai".toList] = (8, ["ai".toList]) := by
  have hT : _count_keyword_hits "ai".toList ["ai".toList] = [("ai".toList, 1)] := by decide
  have hD : _count_keyword_hits [] ["ai".toList] = [] := by decide
  unfold score_article
  dsimp only
  rw [hT, hD, Prod.mk.injEq]
  constructor
  · norm_num
    decide
  · decide

theorem score_eval_double : score_article 0 ⟨"ai ai".toList, "u2".toList, "s".toList,
    "n".toList, [], 0, [], []⟩ ["ai".toList] = (11, ["ai".toList]) := by
  have hT : _count_keyword_hits "ai ai".toList ["ai".toList] = [("ai".toList, 2)] := by decide
  have hD : _count_keyword_hits [] ["ai".toList] = [] := by decide
  unfold score_article
  dsimp only
  rw [hT, hD, Prod.mk.injEq]
  constructor
  · norm_num
    decide
  · decide

theorem filter_sample_eval :
    filter_articles 0 [⟨"ai".toList, "u1".toList, "s".toList, "n".toList, [], 0, [], []⟩,
        ⟨"ai ai".toList, "u2".toList, "s".toList, "n".toList, [], 0, [], []⟩]
      ["ai".toList] 1
    = [⟨"ai ai".toList, "u2".toList, "s".toList, "n".toList, [], 0, [], ["ai".toList]⟩] := by
  unfold filter_articles
  dsimp only
  rw [List.filterMap_cons, List.filterMap_cons, List.filterMap_nil]
  dsimp only
  rw [score_eval_single, score_eval_double]
  norm_num [List.insertionSort, List.orderedInsert, scoredRel]

theorem filter_sample_post_eval :
    filter_articles_post 0 [⟨"ai".toList, "u1".toList, "s".toList, "n".toList, [], 0, [], []⟩,
        ⟨"ai ai".toList, "u2".toList, "s".toList, "n".toList, [], 0, [], []⟩]
      ["ai".toList]
    = [⟨"ai".toList, "u1".toList, "s".toList, "n".toList, [], 0, [], ["ai".toList]⟩,
        ⟨"ai ai".toList, "u2".toList, "s".toList, "n".toList, [], 0, [], ["ai".toList]⟩] := by
  unfold filter_articles_post
  rw [List.map_cons, List.map_cons, List.map_nil]
  dsimp only
  rw [score_eval_single, score_eval_double]
  norm_num

/-- Counterexample to C9: with two positive-scoring candidates and
`maxCount = 1`, the first candidate is dropped by truncation (it is not
emitted), yet the call has observably mutated it: its `matched_keywords`
field changed from `[]` to `["ai"]`. -/
theorem filter_articles_mutates_dropped :
    filter_articles 0 [⟨"ai".toList, "u1".toList, "s".toList, "n".toList, [], 0, [], []⟩,
        ⟨"ai ai".toList, "u2".toList, "s".toList, "n".toList, [], 0, [], []⟩]
      ["ai".toList] 1
      = [⟨"ai ai".toList, "u2".toList, "s".toList, "n".toList, [], 0, [], ["ai".toList]⟩]
    ∧ filter_articles_post 0
        [⟨"ai".toList, "u1".toList, "s".toList, "n".toList, [], 0, [], []⟩,
          ⟨"ai ai".toList, "u2".toList, "s".toList, "n".toList, [], 0, [], []⟩]
        ["ai".toList]
      = [⟨"ai".toList, "u1".toList, "s".toList, "n".toList, [], 0, [], ["ai".toList]⟩,
          ⟨"ai ai".toList, "u2".toList, "s".toList, "n".toList, [], 0, [], ["ai".toList]⟩]
    ∧ (⟨"ai".toList, "u1".toList, "s".toList, "n".toList, [], 0, [], ["ai".toList]⟩ : Article)
      ≠ ⟨"ai".toList, "u1".toList, "s".toList, "n".toList, [], 0, [], []⟩ :=
  ⟨filter_sample_eval, filter_sample_post_eval, by decide⟩

/-- C9 (amended): every candidate emitted by `filter_articles` has its
`matchedKeywords` field populated with its matched-keyword set; every
candidate whose score is not strictly positive is left unchanged by the
call; a candidate with strictly positive score has `matchedKeywords`
populated in place even when truncation drops it from the emitted list. -/
theorem filter_articles_matched_and_frame :
    ∀ (now : Int) (articles : List Article) (kws : List (List Char)) (maxN : Nat),
      (∀ b ∈ filter_articles now articles kws maxN,
        b.matched_keywords = (score_article now b kws).2)
      ∧ (∀ (i : Nat) (hi : i < articles.length),
          ¬ 0 < (score_article now (articles.get ⟨i, hi⟩) kws).1 →
          (filter_articles_post now articles kws).get? i
            = some (articles.get ⟨i, hi⟩))
      ∧ (∀ (i : Nat) (hi : i < articles.length),
          0 < (score_article now (articles.get ⟨i, hi⟩) kws).1 →
          (filter_articles_post now articles kws).get? i
            = some { articles.get ⟨i, hi⟩ with
                matched_keywords := (score_article now (articles.get ⟨i, hi⟩) kws).2 }) := by
  intro now articles kws maxN
  refine ⟨?_, ?_, ?_⟩
  · intro b hb
    obtain ⟨a, ha, hpos, rfl⟩ := mem_filter_articles now articles kws maxN b hb
    rfl
  · intro i hi hneg
    unfold filter_articles_post
    rw [List.get?_map, List.get?_eq_get hi, Option.map_some']
    dsimp only
    rw [if_neg hneg]
  · intro i hi hpos
    unfold filter_articles_post
    rw [List.get?_map, List.get?_eq_get hi, Option.map_some']
    dsimp only
    rw [if_pos hpos]

/-- Witness for C9 (amended): the emitted candidate of the two-article
sample has its matched keywords populated with exactly its matched set. -/
theorem filter_articles_matched_and_frame_witness :
    (⟨"ai ai".toList, "u2".toList, "s".toList, "n".toList, [], 0, [],
        ["ai".toList]⟩ : Article).matched_keywords
      = (score_article 0 ⟨"ai ai".toList, "u2".toList, "s".toList, "n".toList, [], 0, [],
          ["ai".toList]⟩ ["ai".toList]).2 := by
  have hmem : (⟨"ai ai".toList, "u2".toList, "s".toList, "n".toList, [], 0, [],
      ["ai".toList]⟩ : Article)
      ∈ filter_articles 0
          [⟨"ai".toList, "u1".toList, "s".toList, "n".toList, [], 0, [], []⟩,
            ⟨"ai ai".toList, "u2".toList, "s".toList, "n".toList, [], 0, [], []⟩]
          ["ai".toList] 1 := by
    rw [filter_sample_eval]
    exact List.mem_singleton.mpr rfl
  exact (filter_articles_matched_and_frame 0
    [⟨"ai".toList, "u1".toList, "s".toList, "n".toList, [], 0, [], []⟩,
      ⟨"ai ai".toList, "u2".toList, "s".toList, "n".toList, [], 0, [], []⟩]
    ["ai".toList] 1).1 _ hmem

theorem scored_length (now : Int) (kws : List (List Char)) :
    ∀ articles : List Article,
      (articles.filterMap fun article =>
          let sm := score_article now article kws
          if 0 < sm.1 then some (sm.1, { article with matched_keywords := sm.2 })
          else none).length
      = articles.countP fun a => decide (0 < (score_article now a kws).1) := by
  intro articles
  induction articles with
  | nil => rfl
  | cons x xs ih =>
    rw [List.filterMap_cons]
    dsimp only
    by_cases h : 0 < (score_article now x kws).1
    · rw [if_pos h]
      dsimp only
      rw [List.length_cons, ih, List.countP_cons_of_pos _ _ (by simpa using h)]
    · rw [if_neg h]
      rw [ih, List.countP_cons_of_neg _ _ (by simpa using h)]

theorem scored_fst (now : Int) (kws : List (List Char)) (articles : List Article)
    (p : ℚ × Article) :
    p ∈ (articles.filterMap fun article =>
        let sm := score_article now article kws
        if 0 < sm.1 then some (sm.1, { article with matched_keywords := sm.2 })
        else none) →
    p.1 = (score_article now p.2 kws).1 := by
  intro hp
  obtain ⟨a, ha, hfa⟩ := List.mem_filterMap.mp hp
  dsimp only at hfa
  by_cases h : 0 < (score_article now a kws).1
  · rw [if_pos h] at hfa
    obtain rfl := Option.some.inj hfa
    rfl
  · rw [if_neg h] at hfa
    exact absurd hfa (by simp)

theorem scored_mem (now : Int) (kws : List (List Char)) (articles : List Article)
    (a : Article) (ha : a ∈ articles) (h : 0 < (score_article now a kws).1) :
    ((score_article now a kws).1,
        { a with matched_keywords := (score_article now a kws).2 })
      ∈ articles.filterMap fun article =>
          let sm := score_article now article kws
          if 0 < sm.1 then some (sm.1, { article with matched_keywords := sm.2 })
          else none :=
  List.mem_filterMap.mpr ⟨a, ha, by dsimp only; rw [if_pos h]⟩

/-- C2: the Ranking Selector keeps exactly the candidates with strictly
positive score (zero-score candidates are excluded), orders them by score
descending with ties broken by published timestamp descending, truncates to
the first `maxCount` after sorting, and its result length is always
`min(count of positive-scoring candidates, maxCount)`; when no truncation
occurs every positive-scoring candidate appears in the selection (with its
matched keywords stored). -/
theorem filter_articles_selection_spec :
    ∀ (now : Int) (articles : List Article) (kws : List (List Char)) (maxN : Nat),
      (filter_articles now articles kws maxN).length
        = min (articles.countP fun a => decide (0 < (score_article now a kws).1)) maxN
      ∧ (∀ b ∈ filter_articles now articles kws maxN, 0 < (score_article now b kws).1)
      ∧ (filter_articles now articles kws maxN).Pairwise (fun b c =>
          (score_article now c kws).1 < (score_article now b kws).1
          ∨ ((score_article now c kws).1 = (score_article now b kws).1
              ∧ c.published ≤ b.published))
      ∧ ((articles.countP fun a => decide (0 < (score_article now a kws).1)) ≤ maxN →
          ∀ a ∈ articles, 0 < (score_article now a kws).1 →
          { a with matched_keywords := (score_article now a kws).2 }
            ∈ filter_articles now articles kws maxN) := by
  intro now articles kws maxN
  refine ⟨?_, ?_, ?_, ?_⟩
  · unfold filter_articles
    rw [List.length_map, List.length_take,
      (List.perm_insertionSort scoredRel _).length_eq, scored_length now kws articles,
      Nat.min_comm]
  · intro b hb
    obtain ⟨a, ha, hpos, rfl⟩ := mem_filter_articles now articles kws maxN b hb
    exact hpos
  · unfold filter_articles
    rw [List.pairwise_map]
    have hsorted := List.sorted_insertionSort scoredRel (articles.filterMap fun article =>
      let sm := score_article now article kws
      if 0 < sm.1 then some (sm.1, { article with matched_keywords := sm.2 })
      else none)
    have htake : List.Pairwise scoredRel
        (((articles.filterMap fun article =>
            let sm := score_article now article kws
            if 0 < sm.1 then some (sm.1, { article with matched_keywords := sm.2 })
            else none).insertionSort scoredRel).take maxN) :=
      List.Pairwise.sublist (List.take_sublist _ _) hsorted
    refine List.Pairwise.imp_of_mem ?_ htake
    intro p q hp hq hrel
    have hps := scored_fst now kws articles p
      ((List.mem_insertionSort scoredRel).mp (List.mem_of_mem_take hp))
    have hqs := scored_fst now kws articles q
      ((List.mem_insertionSort scoredRel).mp (List.mem_of_mem_take hq))
    unfold scoredRel at hrel
    rw [hps, hqs] at hrel
    exact hrel
  · intro hle a ha hpos
    rw [show filter_articles now articles kws maxN
        = (((articles.filterMap fun article =>
            let sm := score_article now article kws
            if 0 < sm.1 then some (sm.1, { article with matched_keywords := sm.2 })
            else none).insertionSort scoredRel).take maxN).map Prod.snd from rfl]
    have hlen : ((articles.filterMap fun article =>
        let sm := score_article now article kws
        if 0 < sm.1 then some (sm.1, { article with matched_keywords := sm.2 })
        else none).insertionSort scoredRel).length ≤ maxN := by
      rw [(List.perm_insertionSort scoredRel _).length_eq, scored_length now kws articles]
      exact hle
    rw [List.take_of_length_le hlen]
    exact List.mem_map.mpr
      ⟨((score_article now a kws).1,
          { a with matched_keywords := (score_article now a kws).2 }),
        (List.mem_insertionSort scoredRel).mpr (scored_mem now kws articles a ha hpos), rfl⟩

/-- Witness for C2: on two positive-scoring candidates with `maxCount = 1`
the selection has length `min 2 1 = 1`; with `maxCount = 2` (no truncation)
the lower-scoring candidate is included, with matched keywords stored. -/
theorem filter_articles_selection_spec_witness :
    (filter_articles 0 [⟨"ai".toList, "u1".toList, "s".toList, "n".toList, [], 0, [], []⟩,
        ⟨"ai ai".toList, "u2".toList, "s".toList, "n".toList, [], 0, [], []⟩]
      ["ai".toList] 1).length = 1
    ∧ (⟨"ai".toList, "u1".toList, "s".toList, "n".toList, [], 0, [], ["ai".toList]⟩ : Article)
        ∈ filter_articles 0 [⟨"ai".toList, "u1".toList, "s".toList, "n".toList, [], 0, [], []⟩,
            ⟨"ai ai".toList, "u2".toList, "s".toList, "n".toList, [], 0, [], []⟩]
          ["ai".toList] 2 := by
  have hcount : List.countP (fun a => decide (0 < (score_article 0 a ["ai".toList]).1))
      [⟨"ai".toList, "u1".toList, "s".toList, "n".toList, [], 0, [], []⟩,
        ⟨"ai ai".toList, "u2".toList, "s".toList, "n".toList, [], 0, [], []⟩] = 2 := by
    rw [List.countP_cons_of_pos _ _ (by rw [score_eval_single]; norm_num),
        List.countP_cons_of_pos _ _ (by rw [score_eval_double]; norm_num),
        List.countP_nil]
  constructor
  · have h := (filter_articles_selection_spec 0
      [⟨"ai".toList, "u1".toList, "s".toList, "n".toList, [], 0, [], []⟩,
        ⟨"ai ai".toList, "u2".toList, "s".toList, "n".toList, [], 0, [], []⟩]
      ["ai".toList] 1).1
    rw [hcount] at h
    simpa using h
  · have h := (filter_articles_selection_spec 0
      [⟨"ai".toList, "u1".toList, "s".toList, "n".toList, [], 0, [], []⟩,
        ⟨"ai ai".toList, "u2".toList, "s".toList, "n".toList, [], 0, [], []⟩]
      ["ai".toList] 2).2.2.2 (by rw [hcount])
      ⟨"ai".toList, "u1".toList, "s".toList, "n".toList, [], 0, [], []⟩
      (List.mem_cons_self _ _) (by rw [score_eval_single]; norm_num)
    rw [score_eval_single] at h
    exact h
